import Mathlib

/-!
Shallow embedding of the ARTIQ DRTIO core glue (artiq/gateware/drtio/core.py)
and of the scan utilities (artiq/language/scan.py), with theorems checking the
specified properties against these definitions.

Conventions for the hardware part: a Migen Signal is modelled by its name and
bit width (len(signal) = width); elaboration-time Python code (constructors,
do_finalize) is modelled by pure state-passing functions; the value carried by
a bus is a natural number, with Cat packing its first operand at the least
significant bits, as in Migen.
-/

/-- A Migen Signal: a named wire with a bit width. -/
structure Signal where
  name : String
  width : Nat
deriving DecidableEq, Repr

/-- Signal.like(signal): a fresh signal with the same width as the given one. -/
def Signal.like (s : Signal) : Signal :=
  { name := s.name ++ "_synchronized", width := s.width }

/-- The portable Migen elastic buffer as instantiated by
GenericRXSynchronizer.do_finalize: ElasticBuffer(width, depth, cd_write,
cd_read), written in the cd_write clock domain and read in cd_read. -/
structure ElasticBuffer where
  width : Nat
  depth : Nat
  cd_write : String
  cd_read : String
deriving DecidableEq, Repr

/-- GenericRXSynchronizer state: the list of (signal, synchronized) pairs
registered by resync, in registration order (self.signals in the source). -/
structure GenericRXSynchronizer where
  signals : List (Signal × Signal)
deriving DecidableEq, Repr

namespace GenericRXSynchronizer

/-- GenericRXSynchronizer.__init__: self.signals = []. -/
def init : GenericRXSynchronizer := { signals := [] }

/-- resync(signal): creates synchronized = Signal.like(signal), appends the
pair (signal, synchronized) to self.signals and returns synchronized
(state-passing rendition of the method). -/
def resync (rx : GenericRXSynchronizer) (signal : Signal) :
    Signal × GenericRXSynchronizer :=
  let synchronized := signal.like
  (synchronized, { signals := rx.signals ++ [(signal, synchronized)] })

/-- Result of do_finalize: the single elastic buffer submodule together with
the combinatorial wiring: eb.din is driven by Cat of the din_cat signals (in
that order) and the dout_cat signals are driven from the matching slices of
eb.dout. -/
structure FinalizedSynchronizer where
  eb : ElasticBuffer
  din_cat : List Signal
  dout_cat : List Signal
deriving DecidableEq, Repr

/-- do_finalize: eb = ElasticBuffer(sum(len(s[0]) for s in self.signals), 4,
"rtio_rx", "rtio"); eb.din.eq(Cat of the registered input signals);
Cat of the synchronized signals .eq(eb.dout). -/
def do_finalize (rx : GenericRXSynchronizer) : FinalizedSynchronizer :=
  { eb :=
      { width := (rx.signals.map (fun s => s.1.width)).sum
      , depth := 4
      , cd_write := "rtio_rx"
      , cd_read := "rtio" }
  , din_cat := rx.signals.map (fun s => s.1)
  , dout_cat := rx.signals.map (fun s => s.2) }

end GenericRXSynchronizer

/-- Value semantics of Migen Cat: given the (width, value) pairs of the
operands in order, the packed bus value; the first operand occupies the least
significant bits, each value truncated to its width. -/
def catValue : List (Nat × Nat) → Nat
  | [] => 0
  | (w, v) :: rest => v % 2 ^ w + 2 ^ w * catValue rest

/-- The value of the bit slice [offset, offset + width) of a bus value x. -/
def sliceValue (x offset width : Nat) : Nat := x / 2 ^ offset % 2 ^ width

/-- Bit offset of the i-th Cat operand: the sum of the widths of the earlier
operands. -/
def catOffset (widths : List Nat) (i : Nat) : Nat := (widths.take i).sum

/-- Registering a list of signals one by one through resync, returning the
synchronized outputs in order together with the final synchronizer state. -/
def registerAll (rx : GenericRXSynchronizer) :
    List Signal → List Signal × GenericRXSynchronizer
  | [] => ([], rx)
  | s :: rest =>
    let r := rx.resync s
    let r2 := registerAll r.2 rest
    (r.1 :: r2.1, r2.2)

/-- The link layer signals consumed by DRTIOSatellite.__init__. LinkLayer
itself lives in link_layer.py, outside the modelled sources; only the signals
this constructor wires are represented. -/
structure LinkLayerSignals where
  tx_aux_frame : Signal
  tx_aux_data : Signal
  tx_aux_ack : Signal
  tx_rt_frame : Signal
  tx_rt_data : Signal
  rx_aux_stb : Signal
  rx_aux_frame : Signal
  rx_aux_frame_perm : Signal
  rx_aux_data : Signal
  rx_rt_frame : Signal
  rx_rt_frame_perm : Signal
  rx_rt_data : Signal
deriving DecidableEq, Repr

/-- The SimpleNamespace link_layer_sync built by DRTIOSatellite.__init__:
transmit-side signals taken directly from the link layer, receive-side
signals taken from the rx synchronizer outputs. -/
structure LinkLayerSync where
  tx_aux_frame : Signal
  tx_aux_data : Signal
  tx_aux_ack : Signal
  tx_rt_frame : Signal
  tx_rt_data : Signal
  rx_aux_stb : Signal
  rx_aux_frame : Signal
  rx_aux_frame_perm : Signal
  rx_aux_data : Signal
  rx_rt_frame : Signal
  rx_rt_frame_perm : Signal
  rx_rt_data : Signal
deriving DecidableEq, Repr

/-- The RTPacketSatellite module (rt_packet_satellite.py, outside the modelled
sources): only the reset outputs wired by DRTIOSatellite.__init__ are
represented. -/
structure RTPacketSatellite where
  reset : Signal
  reset_phy : Signal
deriving DecidableEq, Repr

/-- A Migen ClockDomain as driven by DRTIOSatellite.__init__: the name of the
clock it is combinatorially tied to, and the signal driving its reset. -/
structure ClockDomain where
  clk : String
  rst : Signal
deriving DecidableEq, Repr

/-- Elaboration result of DRTIOSatellite.__init__ for the wiring decided in
core.py. rx_synchronizer_is_default records whether the rx_synchronizer
argument was None, in which case a fresh GenericRXSynchronizer was created and
added to self.submodules; initial_rx_synchronizer is the synchronizer state
before the seven resync registrations and rx_synchronizer the state after
them. rt_packet_clock_domain is the argument of the ClockDomainsRenamer
wrapped around RTPacketSatellite. -/
structure DRTIOSatellite where
  rx_synchronizer_is_default : Bool
  initial_rx_synchronizer : GenericRXSynchronizer
  rx_synchronizer : GenericRXSynchronizer
  link_layer_sync : LinkLayerSync
  rt_packet_clock_domain : String
  rt_packet : RTPacketSatellite
  cd_rio : ClockDomain
  cd_rio_phy : ClockDomain
  fine_ts_width : Nat
  full_ts_width : Nat
deriving DecidableEq, Repr

/-- DRTIOSatellite.__init__(self, transceiver, channels, rx_synchronizer=None,
fine_ts_width=3, full_ts_width=63), restricted to the wiring performed in
core.py. The externally constructed modules (transceiver, LinkLayer,
RTPacketSatellite) enter through the link_layer and rt_packet parameters; the
seven resync calls appear in source order. -/
def DRTIOSatellite.init (link_layer : LinkLayerSignals)
    (rt_packet : RTPacketSatellite)
    (rx_synchronizer : Option GenericRXSynchronizer := none)
    (fine_ts_width : Nat := 3) (full_ts_width : Nat := 63) : DRTIOSatellite :=
  let rxs0 := rx_synchronizer.getD GenericRXSynchronizer.init
  let r1 := rxs0.resync link_layer.rx_aux_stb
  let r2 := r1.2.resync link_layer.rx_aux_frame
  let r3 := r2.2.resync link_layer.rx_aux_frame_perm
  let r4 := r3.2.resync link_layer.rx_aux_data
  let r5 := r4.2.resync link_layer.rx_rt_frame
  let r6 := r5.2.resync link_layer.rx_rt_frame_perm
  let r7 := r6.2.resync link_layer.rx_rt_data
  { rx_synchronizer_is_default := rx_synchronizer.isNone
  , initial_rx_synchronizer := rxs0
  , rx_synchronizer := r7.2
  , link_layer_sync :=
      { tx_aux_frame := link_layer.tx_aux_frame
      , tx_aux_data := link_layer.tx_aux_data
      , tx_aux_ack := link_layer.tx_aux_ack
      , tx_rt_frame := link_layer.tx_rt_frame
      , tx_rt_data := link_layer.tx_rt_data
      , rx_aux_stb := r1.1
      , rx_aux_frame := r2.1
      , rx_aux_frame_perm := r3.1
      , rx_aux_data := r4.1
      , rx_rt_frame := r5.1
      , rx_rt_frame_perm := r6.1
      , rx_rt_data := r7.1 }
  , rt_packet_clock_domain := "rtio"
  , rt_packet := rt_packet
  , cd_rio := { clk := "rtio", rst := rt_packet.reset }
  , cd_rio_phy := { clk := "rtio", rst := rt_packet.reset_phy }
  , fine_ts_width := fine_ts_width
  , full_ts_width := full_ts_width }

/-- Elaboration result of DRTIOMaster.__init__ for the parameters decided in
core.py. -/
structure DRTIOMaster where
  channel_count : Nat
  fine_ts_width : Nat
deriving DecidableEq, Repr

/-- DRTIOMaster.__init__(self, transceiver, channel_count=1024,
fine_ts_width=3), restricted to the parameters it fixes. -/
def DRTIOMaster.init (channel_count : Nat := 1024)
    (fine_ts_width : Nat := 3) : DRTIOMaster :=
  { channel_count := channel_count, fine_ts_width := fine_ts_width }

/-- Modelled from the spec: the RT command path between master and satellite
(link layer framing and the RT packet engines live in link_layer.py,
rt_packet_master.py and rt_packet_satellite.py, outside the modelled sources).
The spec states that while the link stays up, RT commands form a single
ordered stream per link: an issue event appends the command to the in-flight
stream and a delivery hands the oldest in-flight command to the satellite. -/
inductive LinkEvent (α : Type) where
  | issue (c : α) : LinkEvent α
  | deliver : LinkEvent α
deriving DecidableEq, Repr

/-- Modelled from the spec: the history of one RT link: commands issued by
the master so far, commands still in flight, and commands observed by the
satellite. -/
structure LinkState (α : Type) where
  issued : List α
  inFlight : List α
  observed : List α
deriving DecidableEq, Repr

/-- Modelled from the spec: the initial state of a link, with no traffic. -/
def LinkState.initial {α : Type} : LinkState α :=
  { issued := [], inFlight := [], observed := [] }

/-- Modelled from the spec: one step of the single ordered command stream:
issuing enqueues at the tail, delivery dequeues at the head. -/
def linkStep {α : Type} (st : LinkState α) : LinkEvent α → LinkState α
  | .issue c =>
    { st with issued := st.issued ++ [c], inFlight := st.inFlight ++ [c] }
  | .deliver =>
    match st.inFlight with
    | [] => st
    | c :: rest => { st with inFlight := rest, observed := st.observed ++ [c] }

/-- Modelled from the spec: the link state after a sequence of events while
the link stays up. -/
def linkRun {α : Type} (events : List (LinkEvent α)) : LinkState α :=
  events.foldl linkStep LinkState.initial

/-- NoScan._gen: yield self.value for self.repetitions iterations. Scanned
values are modelled as exact rationals. -/
def NoScan.values (value : ℚ) (repetitions : Nat) : List ℚ :=
  (List.range repetitions).map (fun _ => value)

/-- LinearScan.__len__: return self.npoints. -/
def LinearScan.len (npoints : Nat) : Nat := npoints

/-- LinearScan._gen over exact rationals: nothing for npoints == 0, only
start for npoints == 1, otherwise i * dx + start for i in range(npoints) with
dx = (stop - start) / (npoints - 1). -/
def LinearScan.values (start stop : ℚ) (npoints : Nat) : List ℚ :=
  if npoints = 0 then []
  else if npoints = 1 then [start]
  else
    let dx := (stop - start) / ((npoints : ℚ) - 1)
    (List.range npoints).map (fun (i : Nat) => (i : ℚ) * dx + start)

/-- ExplicitScan.__iter__: iter(self.sequence). -/
def ExplicitScan.values (sequence : List ℚ) : List ℚ := sequence

/-- A scan object of scan.py, identified by its type and constructor
parameters. -/
inductive ScanObject where
  | noScan (value : ℚ) (repetitions : Nat)
  | linearScan (start stop : ℚ) (npoints : Nat)
  | randomScan (start stop : ℚ) (npoints : Nat) (seed : Option Nat)
  | explicitScan (sequence : List ℚ)
deriving DecidableEq, Repr

/-- The dictionary returned by the describe methods: the "ty" string plus the
keys present for that scan type (a key absent from the dictionary is none). -/
structure ScanDescription where
  ty : String
  value : Option ℚ := none
  repetitions : Option Nat := none
  start : Option ℚ := none
  stop : Option ℚ := none
  npoints : Option Nat := none
  seed : Option (Option Nat) := none
  sequence : Option (List ℚ) := none
deriving DecidableEq, Repr

/-- The describe methods of the four scan classes. -/
def ScanObject.describe : ScanObject → ScanDescription
  | .noScan value repetitions =>
    { ty := "NoScan", value := some value, repetitions := some repetitions }
  | .linearScan start stop npoints =>
    { ty := "LinearScan", start := some start, stop := some stop,
      npoints := some npoints }
  | .randomScan start stop npoints seed =>
    { ty := "RandomScan", start := some start, stop := some stop,
      npoints := some npoints, seed := some seed }
  | .explicitScan sequence =>
    { ty := "ExplicitScan", sequence := some sequence }

/-- Scannable.process(x): look the class up by x["ty"] in _ty_to_scan, pass
every constructor argument present in x, and call the constructor; an absent
argument takes its Python default (repetitions=1, seed=None), an absent
required argument or an unknown ty is an error (none). -/
def Scannable.process (x : ScanDescription) : Option ScanObject :=
  if x.ty = "NoScan" then
    match x.value with
    | some value => some (.noScan value (x.repetitions.getD 1))
    | none => none
  else if x.ty = "LinearScan" then
    match x.start, x.stop, x.npoints with
    | some start, some stop, some npoints =>
      some (.linearScan start stop npoints)
    | _, _, _ => none
  else if x.ty = "RandomScan" then
    match x.start, x.stop, x.npoints with
    | some start, some stop, some npoints =>
      some (.randomScan start stop npoints (x.seed.getD none))
    | _, _, _ => none
  else if x.ty = "ExplicitScan" then
    match x.sequence with
    | some sequence => some (.explicitScan sequence)
    | none => none
  else none

/-- The value sequence yielded by iterating a scan object, for the scan types
whose iteration is deterministic; none for RandomScan, whose sequence is
shuffled at construction time. -/
def ScanObject.deterministicValues : ScanObject → Option (List ℚ)
  | .noScan value repetitions => some (NoScan.values value repetitions)
  | .linearScan start stop npoints =>
    some (LinearScan.values start stop npoints)
  | .randomScan _ _ _ _ => none
  | .explicitScan sequence => some (ExplicitScan.values sequence)

/-- itertools.product over a list of lists: every selection of one element
per list, ordered with the LAST list varying fastest. -/
def itertoolsProduct {α : Type} : List (List α) → List (List α)
  | [] => [[]]
  | l :: ls =>
    l.flatMap (fun x => (itertoolsProduct ls).map (fun xs => x :: xs))

/-- Binding one key in a Python dict modelled as an ordered association list:
an existing key keeps its position and takes the new value, a new key is
appended at the end. -/
def dictInsert {α : Type} (d : List (String × α)) (k : String) (v : α) :
    List (String × α) :=
  if d.any (fun p => p.1 == k) then
    d.map (fun p => if p.1 == k then (k, v) else p)
  else d ++ [(k, v)]

/-- The Python dict built from a list of key-value pairs, in order (the dict
comprehension over zip(self.names, values) in MultiScanManager._gen). -/
def dictOfPairs {α : Type} (ps : List (String × α)) : List (String × α) :=
  ps.foldl (fun d p => dictInsert d p.1 p.2) []

/-- MultiScanManager state: the names and the scan objects taken from the
(name, scan_object) argument pairs; a scan object is represented by the list
of values it yields. -/
structure MultiScanManager (α : Type) where
  names : List String
  scan_objects : List (List α)
deriving DecidableEq, Repr

/-- MultiScanManager.__init__(self, *args): names = [a[0] for a in args],
scan_objects = [a[1] for a in args]. -/
def MultiScanManager.init {α : Type} (args : List (String × List α)) :
    MultiScanManager α :=
  { names := args.map Prod.fst, scan_objects := args.map Prod.snd }

/-- MultiScanManager._gen: for values in product(*self.scan_objects), yield
ScanPoint(**{k: v for k, v in zip(self.names, values)}); a ScanPoint is
modelled by the ordered dict of attributes set by its constructor. -/
def MultiScanManager.points {α : Type} (m : MultiScanManager α) :
    List (List (String × α)) :=
  (itertoolsProduct m.scan_objects).map
    (fun values => dictOfPairs (m.names.zip values))

/-!
Helper theorems about the embedded definitions.
-/

theorem registerAll_signals (rx : GenericRXSynchronizer) (sigs : List Signal) :
    (registerAll rx sigs).2.signals
      = rx.signals ++ sigs.map (fun s => (s, s.like)) := by
  induction sigs generalizing rx with
  | nil => simp [registerAll]
  | cons s rest ih =>
    simp [registerAll, GenericRXSynchronizer.resync, ih, List.append_assoc]

/-- Extracting the slice at the i-th operand offset of a packed Cat value
recovers exactly the i-th operand value (truncated to its width). -/
theorem catValue_slice (l : List (Nat × Nat)) (i : Nat) (hi : i < l.length) :
    sliceValue (catValue l) (catOffset (l.map Prod.fst) i) (l.get ⟨i, hi⟩).1
      = (l.get ⟨i, hi⟩).2 % 2 ^ (l.get ⟨i, hi⟩).1 := by
  induction l generalizing i with
  | nil => simp at hi
  | cons p rest ih =>
    cases i with
    | zero =>
      simp only [catOffset, List.map_cons, List.take_zero, List.sum_nil,
        sliceValue, catValue, pow_zero, Nat.div_one, List.get]
      rw [Nat.add_mul_mod_self_left, Nat.mod_mod_of_dvd _ dvd_rfl]
    | succ j =>
      have hj : j < rest.length := by simpa using hi
      have h2 : (0 : Nat) < 2 ^ p.1 := Nat.pos_pow_of_pos _ (by norm_num)
      have hoff : catOffset ((p :: rest).map Prod.fst) (j + 1)
          = p.1 + catOffset (rest.map Prod.fst) j := by
        simp [catOffset, List.take_succ_cons]
      have hkey : sliceValue (catValue (p :: rest))
          (p.1 + catOffset (rest.map Prod.fst) j) (rest.get ⟨j, hj⟩).1
          = sliceValue (catValue rest) (catOffset (rest.map Prod.fst) j)
              (rest.get ⟨j, hj⟩).1 := by
        simp only [sliceValue, catValue, pow_add, ← Nat.div_div_eq_div_mul]
        rw [Nat.add_mul_div_left _ _ h2,
          Nat.div_eq_of_lt (Nat.mod_lt _ h2), Nat.zero_add]
      rw [hoff]
      have hget : (p :: rest).get ⟨j + 1, hi⟩ = rest.get ⟨j, hj⟩ := rfl
      rw [hget, hkey]
      exact ih j hj

theorem linkStep_ordered {α : Type} (st : LinkState α) (e : LinkEvent α)
    (h : st.observed ++ st.inFlight = st.issued) :
    (linkStep st e).observed ++ (linkStep st e).inFlight
      = (linkStep st e).issued := by
  cases e with
  | issue c => simp [linkStep, ← h, List.append_assoc]
  | deliver =>
    cases hq : st.inFlight with
    | nil => simpa [linkStep, hq] using h
    | cons c rest =>
      simp only [linkStep, hq]
      rw [← h, hq]
      simp [List.append_assoc]

theorem linkRun_ordered_aux {α : Type} (events : List (LinkEvent α))
    (st : LinkState α) (h : st.observed ++ st.inFlight = st.issued) :
    (events.foldl linkStep st).observed ++ (events.foldl linkStep st).inFlight
      = (events.foldl linkStep st).issued := by
  induction events generalizing st with
  | nil => simpa using h
  | cons e rest ih => exact ih (linkStep st e) (linkStep_ordered st e h)

theorem itertoolsProduct_length {α : Type} (ls : List (List α)) :
    (itertoolsProduct ls).length = (ls.map List.length).prod := by
  induction ls with
  | nil => simp [itertoolsProduct]
  | cons l ls ih =>
    simp only [itertoolsProduct, List.length_flatMap, Function.comp_def,
      List.length_map, List.map_cons, List.prod_cons]
    rw [List.map_const', List.sum_replicate, smul_eq_mul, ih]

theorem itertoolsProduct_mem_length {α : Type} (ls : List (List α))
    (vs : List α) (h : vs ∈ itertoolsProduct ls) : vs.length = ls.length := by
  induction ls generalizing vs with
  | nil =>
    simp only [itertoolsProduct, List.mem_singleton] at h
    simp [h]
  | cons l ls ih =>
    simp only [itertoolsProduct, List.mem_flatMap, List.mem_map] at h
    obtain ⟨x, _, ys, hys, rfl⟩ := h
    simp [ih ys hys]

theorem dictInsert_new {α : Type} (d : List (String × α)) (k : String) (v : α)
    (h : k ∉ d.map Prod.fst) : dictInsert d k v = d ++ [(k, v)] := by
  have hk : (d.any (fun q => q.1 == k)) = false := by
    simp only [List.any_eq_false, beq_iff_eq]
    intro q hq hq1
    exact h (by rw [← hq1]; exact List.mem_map_of_mem Prod.fst hq)
  simp [dictInsert, hk]

theorem dictOfPairs_aux {α : Type} (ps d : List (String × α))
    (h : ((d ++ ps).map Prod.fst).Nodup) :
    ps.foldl (fun d2 p => dictInsert d2 p.1 p.2) d = d ++ ps := by
  induction ps generalizing d with
  | nil => simp
  | cons p ps ih =>
    have hmem : p.1 ∉ d.map Prod.fst := by
      rw [List.map_append, List.nodup_append] at h
      intro hin
      exact h.2.2 hin (by simp)
    rw [List.foldl_cons, dictInsert_new d p.1 p.2 hmem]
    have h2 : (((d ++ [p]) ++ ps).map Prod.fst).Nodup := by
      simpa [List.append_assoc] using h
    rw [ih (d ++ [p]) h2]
    simp

/-- Building the Python dict from pairs whose keys are distinct returns the
pairs unchanged. -/
theorem dictOfPairs_nodup {α : Type} (ps : List (String × α))
    (h : (ps.map Prod.fst).Nodup) : dictOfPairs ps = ps := by
  simpa using dictOfPairs_aux ps [] (by simpa using h)

/-!
Theorems for the specified claims.
-/

/-- Claim C1: in the DRTIOSatellite constructor, every receive-side
link-layer signal handed to downstream local-domain logic (rx_aux_stb,
rx_aux_frame, rx_aux_frame_perm, rx_aux_data, rx_rt_frame, rx_rt_frame_perm,
rx_rt_data) is the output of a resync registration on the rx synchronizer
whose input is the matching link-layer signal, no transmit-side signal
(tx_aux_frame, tx_aux_data, tx_aux_ack, tx_rt_frame, tx_rt_data) is
resynchronized (each is passed through unchanged, and the registered pairs
are exactly the seven receive-side ones), and the RT packet engine is
re-anchored to the local rtio clock domain. -/
theorem claim_C1_satellite_rx_bridged (ll : LinkLayerSignals)
    (rt : RTPacketSatellite) (rxs : Option GenericRXSynchronizer)
    (ftw fullw : Nat) :
    (DRTIOSatellite.init ll rt rxs ftw fullw).rx_synchronizer.signals
        = (DRTIOSatellite.init ll rt rxs ftw
              fullw).initial_rx_synchronizer.signals ++
          [(ll.rx_aux_stb, (DRTIOSatellite.init ll rt rxs ftw
              fullw).link_layer_sync.rx_aux_stb),
           (ll.rx_aux_frame, (DRTIOSatellite.init ll rt rxs ftw
              fullw).link_layer_sync.rx_aux_frame),
           (ll.rx_aux_frame_perm, (DRTIOSatellite.init ll rt rxs ftw
              fullw).link_layer_sync.rx_aux_frame_perm),
           (ll.rx_aux_data, (DRTIOSatellite.init ll rt rxs ftw
              fullw).link_layer_sync.rx_aux_data),
           (ll.rx_rt_frame, (DRTIOSatellite.init ll rt rxs ftw
              fullw).link_layer_sync.rx_rt_frame),
           (ll.rx_rt_frame_perm, (DRTIOSatellite.init ll rt rxs ftw
              fullw).link_layer_sync.rx_rt_frame_perm),
           (ll.rx_rt_data, (DRTIOSatellite.init ll rt rxs ftw
              fullw).link_layer_sync.rx_rt_data)]
      ∧ (DRTIOSatellite.init ll rt rxs ftw fullw).link_layer_sync.tx_aux_frame
        = ll.tx_aux_frame
      ∧ (DRTIOSatellite.init ll rt rxs ftw fullw).link_layer_sync.tx_aux_data
        = ll.tx_aux_data
      ∧ (DRTIOSatellite.init ll rt rxs ftw fullw).link_layer_sync.tx_aux_ack
        = ll.tx_aux_ack
      ∧ (DRTIOSatellite.init ll rt rxs ftw fullw).link_layer_sync.tx_rt_frame
        = ll.tx_rt_frame
      ∧ (DRTIOSatellite.init ll rt rxs ftw fullw).link_layer_sync.tx_rt_data
        = ll.tx_rt_data
      ∧ (DRTIOSatellite.init ll rt rxs ftw fullw).rt_packet_clock_domain
        = "rtio" := by
  refine ⟨?_, rfl, rfl, rfl, rfl, rfl, rfl⟩
  simp [DRTIOSatellite.init, GenericRXSynchronizer.resync, List.append_assoc]

/-- Claim C2: at finalization, GenericRXSynchronizer creates one shared
elastic buffer whose data width equals the sum of the widths of all signals
registered via resync, with depth 4, written in the recovered (rtio_rx)
clock domain and read in the local (rtio) clock domain. -/
theorem claim_C2_finalize_elastic_buffer (sigs : List Signal) :
    (GenericRXSynchronizer.do_finalize
        (registerAll GenericRXSynchronizer.init sigs).2).eb
      = { width := (sigs.map Signal.width).sum
        , depth := 4
        , cd_write := "rtio_rx"
        , cd_read := "rtio" } := by
  simp [GenericRXSynchronizer.do_finalize, registerAll_signals,
    GenericRXSynchronizer.init, List.map_map, Function.comp_def]

/-- Claim C3: for every sequence of signals registered via resync, each
resync call returns a signal of the same width as its input, the buffer
input is the concatenation of the original signals in registration order,
each synchronized output is driven from the positionally corresponding Cat
operand of the buffer output, and the slice of the packed bus value at the
i-th operand offset recovers exactly the value written on the i-th signal,
so relative order among the bridged signals is preserved and every written
value reaches exactly its own synchronized output. -/
theorem claim_C3_bridge_packing (sigs : List Signal) (vs : List Nat) (i : Nat)
    (hlen : vs.length = sigs.length) (hi : i < sigs.length)
    (hv : vs.getD i 0 < 2 ^ (sigs.getD i ⟨"", 0⟩).width) :
    (∀ rx s, ((GenericRXSynchronizer.resync rx s).1).width = s.width)
    ∧ (registerAll GenericRXSynchronizer.init sigs).2.signals.map Prod.fst
        = sigs
    ∧ (∀ p ∈ (registerAll GenericRXSynchronizer.init sigs).2.signals,
        p.2.width = p.1.width)
    ∧ (GenericRXSynchronizer.do_finalize
        (registerAll GenericRXSynchronizer.init sigs).2).din_cat = sigs
    ∧ (GenericRXSynchronizer.do_finalize
        (registerAll GenericRXSynchronizer.init sigs).2).dout_cat
      = (registerAll GenericRXSynchronizer.init sigs).2.signals.map Prod.snd
    ∧ sliceValue (catValue ((sigs.map Signal.width).zip vs))
        (catOffset (sigs.map Signal.width) i) ((sigs.getD i ⟨"", 0⟩).width)
      = vs.getD i 0 := by
  have hws : (sigs.map Signal.width).length = sigs.length := List.length_map _ _
  have hvi : i < vs.length := by omega
  have hzlen : i < ((sigs.map Signal.width).zip vs).length := by
    rw [List.length_zip]
    omega
  refine ⟨fun rx s => rfl, ?_, ?_, ?_, rfl, ?_⟩
  · simp [registerAll_signals, GenericRXSynchronizer.init, List.map_map,
      Function.comp_def]
  · intro p hp
    rw [registerAll_signals] at hp
    simp only [GenericRXSynchronizer.init, List.nil_append, List.mem_map]
      at hp
    obtain ⟨s, _, rfl⟩ := hp
    rfl
  · simp [GenericRXSynchronizer.do_finalize, registerAll_signals,
      GenericRXSynchronizer.init, List.map_map, Function.comp_def]
  · have hwi : i < (sigs.map Signal.width).length := by omega
    have hmain := catValue_slice ((sigs.map Signal.width).zip vs) i hzlen
    have hfst : ((sigs.map Signal.width).zip vs).map Prod.fst
        = sigs.map Signal.width :=
      List.map_fst_zip _ _ (by omega)
    rw [hfst] at hmain
    have hget : ((sigs.map Signal.width).zip vs).get ⟨i, hzlen⟩
        = ((sigs.map Signal.width).get ⟨i, hwi⟩, vs.get ⟨i, hvi⟩) := by
      simp only [List.get_eq_getElem]
      exact List.getElem_zip
    rw [hget] at hmain
    have hwget : (sigs.map Signal.width).get ⟨i, hwi⟩
        = (sigs.get ⟨i, hi⟩).width := by
      simp only [List.get_eq_getElem]
      exact List.getElem_map Signal.width
    rw [hwget] at hmain
    have hd1 : sigs.getD i ⟨"", 0⟩ = sigs.get ⟨i, hi⟩ := by
      simp only [List.get_eq_getElem]
      exact List.getD_eq_getElem sigs ⟨"", 0⟩ hi
    have hd2 : vs.getD i 0 = vs.get ⟨i, hvi⟩ := by
      simp only [List.get_eq_getElem]
      exact List.getD_eq_getElem vs 0 hvi
    rw [hd1, hd2]
    rw [hd1, hd2] at hv
    rw [hmain]
    exact Nat.mod_eq_of_lt hv

/-- Witness for claim C3 at a concrete registration sequence: signals of
widths 2 and 3 carrying the values 3 and 5; the slice for the second signal
recovers 5. -/
theorem claim_C3_bridge_packing_witness :
    sliceValue
        (catValue ((([⟨"a", 2⟩, ⟨"b", 3⟩] : List Signal).map Signal.width).zip
          [3, 5]))
        (catOffset (([⟨"a", 2⟩, ⟨"b", 3⟩] : List Signal).map Signal.width) 1)
        ((([⟨"a", 2⟩, ⟨"b", 3⟩] : List Signal).getD 1 ⟨"", 0⟩).width)
      = [3, 5].getD 1 0 :=
  (claim_C3_bridge_packing [⟨"a", 2⟩, ⟨"b", 3⟩] [3, 5] 1 (by decide)
    (by decide) (by decide)).2.2.2.2.2

/-- Claim C4: a DRTIOSatellite constructed with rx_synchronizer=None
instantiates the elastic-buffer bridge GenericRXSynchronizer as the default
and adds it as a submodule (starting from the empty registration state),
while a supplied bridge is used unchanged instead. -/
theorem claim_C4_default_synchronizer (ll : LinkLayerSignals)
    (rt : RTPacketSatellite) (s : GenericRXSynchronizer)
    (ftw fullw : Nat) :
    ((DRTIOSatellite.init ll rt none ftw fullw).rx_synchronizer_is_default
        = true
      ∧ (DRTIOSatellite.init ll rt none ftw fullw).initial_rx_synchronizer
        = GenericRXSynchronizer.init)
    ∧ ((DRTIOSatellite.init ll rt (some s) ftw
          fullw).rx_synchronizer_is_default = false
      ∧ (DRTIOSatellite.init ll rt (some s) ftw
          fullw).initial_rx_synchronizer = s) :=
  ⟨⟨rfl, rfl⟩, ⟨rfl, rfl⟩⟩

/-- Claim C5: while the link stays up, the satellite observes RT commands in
the same relative order the master issued them: after any sequence of issue
and delivery events on the single ordered command stream, the observed
sequence followed by the still-in-flight sequence is exactly the issued
sequence, so the observed sequence is the order-preserving initial segment
of the issued one. -/
theorem claim_C5_command_order {α : Type} (events : List (LinkEvent α)) :
    (linkRun events).observed ++ (linkRun events).inFlight
        = (linkRun events).issued
      ∧ (linkRun events).issued.take (linkRun events).observed.length
        = (linkRun events).observed := by
  have h : (linkRun events).observed ++ (linkRun events).inFlight
      = (linkRun events).issued :=
    linkRun_ordered_aux events LinkState.initial rfl
  refine ⟨h, ?_⟩
  rw [← h]
  exact List.take_left _ _

/-- Claim C6: the default timestamp widths are fine = 3 and full = 63 on the
satellite, and fine = 3 on the master. -/
theorem claim_C6_default_ts_widths (ll : LinkLayerSignals)
    (rt : RTPacketSatellite) :
    (DRTIOSatellite.init ll rt).fine_ts_width = 3
      ∧ (DRTIOSatellite.init ll rt).full_ts_width = 63
      ∧ DRTIOMaster.init.fine_ts_width = 3 :=
  ⟨rfl, rfl, rfl⟩

/-- Claim C7: DRTIOSatellite creates the two downstream clock domains rio
and rio_phy, both clocked by the local rtio clock, with the rio reset driven
by the RT packet engine reset output and the rio_phy reset driven by its
reset_phy output. -/
theorem claim_C7_downstream_clock_domains (ll : LinkLayerSignals)
    (rt : RTPacketSatellite) (rxs : Option GenericRXSynchronizer)
    (ftw fullw : Nat) :
    (DRTIOSatellite.init ll rt rxs ftw fullw).cd_rio.clk = "rtio"
      ∧ (DRTIOSatellite.init ll rt rxs ftw fullw).cd_rio.rst = rt.reset
      ∧ (DRTIOSatellite.init ll rt rxs ftw fullw).cd_rio_phy.clk = "rtio"
      ∧ (DRTIOSatellite.init ll rt rxs ftw fullw).cd_rio_phy.rst
        = rt.reset_phy :=
  ⟨rfl, rfl, rfl, rfl⟩

/-- Claim C8: iterating a MultiScanManager constructed from (name,
scan_object) pairs yields one ScanPoint per element of the Cartesian product
of the scan objects, the last scan varying fastest, and not a concatenation
of the scans: the number of points is the product of the scan lengths, and
(for distinct registered names) the i-th point binds exactly one attribute
per registered name, in registration order, to that scan's value in the i-th
product tuple. -/
theorem claim_C8_multi_scan_product (α : Type) (args : List (String × List α))
    (hnodup : (MultiScanManager.init args).names.Nodup) :
    (MultiScanManager.init args).points.length
        = ((MultiScanManager.init args).scan_objects.map List.length).prod
      ∧ ∀ i vs,
          (itertoolsProduct (MultiScanManager.init args).scan_objects).get? i
            = some vs →
          (MultiScanManager.init args).points.get? i
              = some ((MultiScanManager.init args).names.zip vs)
            ∧ ((MultiScanManager.init args).names.zip vs).map Prod.fst
              = (MultiScanManager.init args).names := by
  constructor
  · simp [MultiScanManager.points, itertoolsProduct_length]
  · intro i vs hvs
    have hmem : vs ∈ itertoolsProduct (MultiScanManager.init
        args).scan_objects :=
      List.get?_mem hvs
    have hvlen : vs.length
        = (MultiScanManager.init args).scan_objects.length :=
      itertoolsProduct_mem_length _ _ hmem
    have hnlen : (MultiScanManager.init args).names.length
        = (MultiScanManager.init args).scan_objects.length := by
      simp [MultiScanManager.init]
    have hkeys : ((MultiScanManager.init args).names.zip vs).map Prod.fst
        = (MultiScanManager.init args).names :=
      List.map_fst_zip _ _ (by omega)
    have hps : (((MultiScanManager.init args).names.zip
        vs).map Prod.fst).Nodup := by
      rw [hkeys]
      exact hnodup
    refine ⟨?_, hkeys⟩
    simp only [MultiScanManager.points]
    rw [List.get?_map, hvs, Option.map_some', dictOfPairs_nodup _ hps]

/-- Witness for claim C8 with two scans of lengths 2 and 1: the manager
yields 2 points and the first point is the zip of the names with the first
product tuple. -/
theorem claim_C8_multi_scan_product_witness :
    (MultiScanManager.init
        ([("a", [1, 2]), ("b", [3])] : List (String × List Nat))).points.length
        = 2
      ∧ (MultiScanManager.init
          ([("a", [1, 2]), ("b", [3])] :
            List (String × List Nat))).points.get? 0
        = some [("a", 1), ("b", 3)] := by
  have h := claim_C8_multi_scan_product Nat [("a", [1, 2]), ("b", [3])]
    (by decide)
  refine ⟨?_, ?_⟩
  · rw [h.1]
    rfl
  · exact (h.2 0 [1, 3] rfl).1

/-- Claim C9: for every scan object s of type NoScan, LinearScan, RandomScan
or ExplicitScan, Scannable.process applied to s.describe() reconstructs a
scan object of the same type with the same constructor parameters, and for
the deterministic scan types (NoScan, LinearScan, ExplicitScan) the
reconstructed scan yields the same sequence of values as s. -/
theorem claim_C9_describe_process_roundtrip (s : ScanObject) :
    Scannable.process s.describe = some s
      ∧ (Scannable.process s.describe).bind ScanObject.deterministicValues
        = s.deterministicValues := by
  cases s <;> exact ⟨rfl, rfl⟩

/-- Claim C10: under exact rational arithmetic a LinearScan yields exactly
npoints values and len returns npoints; with npoints = 0 nothing is yielded,
with npoints = 1 only start, and with npoints >= 2 the first value is start,
the last is stop, and consecutive values differ by
(stop - start) / (npoints - 1). -/
theorem claim_C10_linear_scan (start stop : ℚ) (npoints : Nat)
    (h : 2 ≤ npoints) :
    LinearScan.len npoints = npoints
      ∧ (∀ n, (LinearScan.values start stop n).length = n)
      ∧ LinearScan.values start stop 0 = []
      ∧ LinearScan.values start stop 1 = [start]
      ∧ (LinearScan.values start stop npoints).getD 0 0 = start
      ∧ (LinearScan.values start stop npoints).getD (npoints - 1) 0 = stop
      ∧ ∀ i, i + 1 < npoints →
          (LinearScan.values start stop npoints).getD (i + 1) 0
              - (LinearScan.values start stop npoints).getD i 0
            = (stop - start) / ((npoints : ℚ) - 1) := by
  have h0 : npoints ≠ 0 := by omega
  have h1 : npoints ≠ 1 := by omega
  have hval : LinearScan.values start stop npoints
      = (List.range npoints).map
          (fun (i : Nat) => (i : ℚ) * ((stop - start) / ((npoints : ℚ) - 1))
            + start) := by
    unfold LinearScan.values
    rw [if_neg h0, if_neg h1]
  have h2q : (2 : ℚ) ≤ (npoints : ℚ) := by exact_mod_cast h
  have hne : ((npoints : ℚ) - 1) ≠ 0 := by
    intro hc
    have : (npoints : ℚ) = 1 := by linarith
    linarith
  have hgetD : ∀ i, i < npoints →
      (LinearScan.values start stop npoints).getD i 0
        = (i : ℚ) * ((stop - start) / ((npoints : ℚ) - 1)) + start := by
    intro i hi
    rw [hval]
    rw [List.getD_eq_getElem _ _ (by simpa using hi), List.getElem_map,
      List.getElem_range]
  refine ⟨rfl, ?_, by simp [LinearScan.values], by simp [LinearScan.values],
    ?_, ?_, ?_⟩
  · intro n
    match n with
    | 0 => simp [LinearScan.values]
    | 1 => simp [LinearScan.values]
    | m + 2 =>
      show ((List.range (m + 2)).map _).length = m + 2
      rw [List.length_map, List.length_range]
  · rw [hgetD 0 (by omega)]
    simp
  · rw [hgetD (npoints - 1) (by omega)]
    have hcast : ((npoints - 1 : Nat) : ℚ) = (npoints : ℚ) - 1 := by
      rw [Nat.cast_sub (by omega), Nat.cast_one]
    rw [hcast]
    field_simp
  · intro i hi
    rw [hgetD (i + 1) (by omega), hgetD i (by omega)]
    push_cast
    ring

/-- Witness for claim C10 at start 0, stop 1, npoints 3. -/
theorem claim_C10_linear_scan_witness :
    (LinearScan.values 0 1 3).length = 3
      ∧ (LinearScan.values 0 1 3).getD 0 0 = 0
      ∧ (LinearScan.values 0 1 3).getD 2 0 = 1
      ∧ (LinearScan.values 0 1 3).getD 1 0 - (LinearScan.values 0 1 3).getD 0 0
        = (1 - 0) / ((3 : ℚ) - 1) := by
  obtain ⟨-, hlen, -, -, hfirst, hlast, hstep⟩ :=
    claim_C10_linear_scan 0 1 3 (by norm_num)
  exact ⟨hlen 3, hfirst, hlast, hstep 0 (by norm_num)⟩
